import Mathlib

/-!
Verification development for the client-side view layer of the
youtube-learning-app (frontend/src/App.js). The embedding models the
pure computations of the component (video-id extraction, timestamp
parsing) and its state transitions (submission, polling ticks) as Lean
functions over explicit state, with HTTP responses supplied as inputs.
-/

namespace App

/-! ### Video identifier extraction

The source applies the JavaScript regular expression

  /^.*(youtu.be\/|v\/|u\/\w\/|embed\/|watch\?v=|&v=)([^#&?]*).*/

to the URL and returns group 2 when it has exactly 11 characters,
otherwise null.  We embed the regex by its backtracking semantics:
the greedy leading dot-star places group 1 at the greatest position
where one of the six alternatives matches (the alternatives begin with
six distinct characters, so alternation order never matters at a fixed
position), group 2 then greedily takes the maximal run of characters
outside #, &, ?, and the trailing dot-star always succeeds.  A dot
matches any character except a line terminator. -/

/-- True of the four JavaScript line terminators, which `.` does not match. -/
def isLineTerm (c : Char) : Bool :=
  c = '\n' || c = '\r' || c = '\u2028' || c = '\u2029'

/-- JavaScript word character class `\w`, namely [A-Za-z0-9_]. -/
def isWordChar (c : Char) : Bool :=
  c.isAlpha || c.isDigit || c = '_'

/-- Alternative `youtu.be\/` of the regex; the unescaped dot matches any
non-line-terminator character.  Returns the matched length. -/
def altYoutube : List Char → Option Nat
  | 'y' :: 'o' :: 'u' :: 't' :: 'u' :: c :: 'b' :: 'e' :: '/' :: _ =>
      if isLineTerm c then none else some 9
  | _ => none

/-- Alternative `v\/` of the regex. -/
def altV : List Char → Option Nat
  | 'v' :: '/' :: _ => some 2
  | _ => none

/-- Alternative `u\/\w\/` of the regex. -/
def altU : List Char → Option Nat
  | 'u' :: '/' :: c :: '/' :: _ => if isWordChar c then some 4 else none
  | _ => none

/-- Alternative `embed\/` of the regex. -/
def altEmbed : List Char → Option Nat
  | 'e' :: 'm' :: 'b' :: 'e' :: 'd' :: '/' :: _ => some 6
  | _ => none

/-- Alternative `watch\?v=` of the regex. -/
def altWatch : List Char → Option Nat
  | 'w' :: 'a' :: 't' :: 'c' :: 'h' :: '?' :: 'v' :: '=' :: _ => some 8
  | _ => none

/-- Alternative `&v=` of the regex. -/
def altAmp : List Char → Option Nat
  | '&' :: 'v' :: '=' :: _ => some 3
  | _ => none

/-- Group 1 of the regex: the six alternatives tried in source order at a
fixed position; returns the matched length. -/
def matchAlt (s : List Char) : Option Nat :=
  (altYoutube s).orElse fun _ =>
  (altV s).orElse fun _ =>
  (altU s).orElse fun _ =>
  (altEmbed s).orElse fun _ =>
  (altWatch s).orElse fun _ =>
  altAmp s

/-- Character class `[^#&?]` of group 2. -/
def notDelim (c : Char) : Bool :=
  !(c = '#' || c = '&' || c = '?')

/-- Attempts to place group 1 at position `k`: the leading `^.*` must be
able to consume the prefix (no line terminators) and an alternative must
match at `k`.  Returns the alternative length on success. -/
def tryAt (url : List Char) (k : Nat) : Option Nat :=
  if (url.take k).all (fun c => !isLineTerm c) then matchAlt (url.drop k)
  else none

/-- Backtracking search of the greedy leading `.*`: positions are tried
from `k` downwards and the first success wins, so the result is the
greatest eligible position together with the alternative length. -/
def searchDown (url : List Char) : Nat → Option (Nat × Nat)
  | 0 => (tryAt url 0).map fun m => (0, m)
  | k + 1 =>
    match tryAt url (k + 1) with
    | some m => some (k + 1, m)
    | none => searchDown url k

/-- Embedding of `extractVideoId` from App.js: match the regex against
the URL and return group 2 exactly when it has 11 characters. -/
def extractVideoId (url : List Char) : Option (List Char) :=
  match searchDown url url.length with
  | none => none
  | some (k, m) =>
    let g2 := (url.drop (k + m)).takeWhile notDelim
    if g2.length = 11 then some g2 else none

/-- Modelled from the spec: the spec reads "For all URLs matching a
recognized pattern with an 11-character trailing token, extraction
returns that token".  A URL matches with token `tok` when some
recognized shape occurs at a position reachable by the leading `^.*`
and `tok`, the maximal run of non-`#&?` characters following that
shape, has exactly 11 characters. -/
def specClaimMatch (url tok : List Char) : Prop :=
  ∃ k m, tryAt url k = some m ∧
    tok = (url.drop (k + m)).takeWhile notDelim ∧ tok.length = 11

/-- Amended specification of the extraction, written independently of the
backtracking search: take the GREATEST position (computed by
`Nat.findGreatest`, not by the downward search of the implementation) at
which a recognized shape matches, and return the maximal run of
non-`#&?` characters after it exactly when that run has 11 characters. -/
def specLastExtract (url : List Char) : Option (List Char) :=
  let k := Nat.findGreatest (fun k => (tryAt url k).isSome) url.length
  match tryAt url k with
  | none => none
  | some m =>
    let g2 := (url.drop (k + m)).takeWhile notDelim
    if g2.length = 11 then some g2 else none

/-! ### Component state and HTTP responses -/

/-- One transcript segment as served by `GET /api/transcript/...`. -/
structure Sentence where
  key : String
  start_time : String
  english : String
  pronunciation_hindi : String
  translation_hindi : String
deriving DecidableEq, Repr

/-- A segment after the client spreads it and adds `sentence_number`. -/
structure NumberedSentence where
  seg : Sentence
  sentence_number : Nat
deriving DecidableEq, Repr

/-- Response of `GET /api/task_status/...`. -/
structure StatusResp where
  status : String
  processed_chunks : Nat
  total_chunks : Nat
deriving DecidableEq, Repr

/-- Response of `GET /api/transcript/...`. -/
structure TranscriptResp where
  sentences : List Sentence
  last_key : String
deriving DecidableEq, Repr

/-- The React state of the component: `useState` hooks `taskId`,
`sentences`, `lastKey`, `isProcessing`, `progress` (the `url` input box
is passed separately where needed). -/
structure AppState where
  taskId : Option String
  sentences : List NumberedSentence
  lastKey : Option String
  isProcessing : Bool
  progress : Nat
deriving DecidableEq, Repr

/-- The initial state of the component: all hooks at their initial
values. -/
def initState : AppState :=
  { taskId := none, sentences := [], lastKey := none,
    isProcessing := false, progress := 0 }

/-- Exact rational-arithmetic counterpart of
`Math.round((processed / total) * 100)` for `total > 0`:
`round(100 p / t) = floor(100 p / t + 1 / 2) = (200 p + t) / (2 t)`
in natural floor division. -/
def roundPct (p t : Nat) : Nat :=
  (200 * p + t) / (2 * t)

/-- The progress update at the top of a poll tick: when
`status.total_chunks > 0`, set `progress` to the rounded percentage,
otherwise leave the state untouched. -/
def applyStatusProgress (st : AppState) (s : StatusResp) : AppState :=
  if 0 < s.total_chunks then
    { st with progress := roundPct s.processed_chunks s.total_chunks }
  else st

/-- Embedding of
`data.sentences.map((sentence, i) => (..., sentence_number: startNum + i))`:
number a batch consecutively starting at `start`. -/
def numberFrom : Nat → List Sentence → List NumberedSentence
  | _, [] => []
  | n, s :: rest => ⟨s, n⟩ :: numberFrom (n + 1) rest

/-- Outcome of the two fetches of one poll tick.  `statusFail` is a
fetch or JSON error on the status request; `transcriptFail` is a
status success followed by a fetch or JSON error on the transcript
request; `ok` is both succeeding.  An error anywhere jumps to the catch
block, which only logs. -/
inductive TickInput where
  | statusFail : TickInput
  | transcriptFail : StatusResp → TickInput
  | ok : StatusResp → TranscriptResp → TickInput
deriving DecidableEq, Repr

/-- Embedding of the `setInterval` callback body: one poll tick.
Returns the new state and whether `clearInterval` was called (the tick
stopped the timer).  Mirrors the source order: progress update from the
status response, then append of the new segments (numbered from the
current count + 1) and cursor update from `data.last_key`, then the
completion check; a failed fetch skips everything after it. -/
def pollTick (st : AppState) : TickInput → AppState × Bool
  | .statusFail => (st, false)
  | .transcriptFail s => (applyStatusProgress st s, false)
  | .ok s tr =>
    let st1 := applyStatusProgress st s
    let st2 :=
      if 0 < tr.sentences.length then
        { st1 with
          sentences := st1.sentences ++
            numberFrom (st1.sentences.length + 1) tr.sentences,
          lastKey := some tr.last_key }
      else st1
    if s.status = "completed" then
      ({ st2 with isProcessing := false }, true)
    else (st2, false)

/-- Dependency array of the polling `useEffect`:
`[taskId, lastKey, sentences.length]`. -/
def effectDeps (st : AppState) : Option String × Option String × Nat :=
  (st.taskId, st.lastKey, st.sentences.length)

/-- Whether an interval is scheduled after a tick ran, per the effect
lifecycle: if the tick changed one of the effect dependencies, the
effect re-runs — its cleanup clears whatever interval remains and,
when a task handle is present, `setInterval` schedules a new one — so
ticks continue even after a `clearInterval`; if no dependency changed,
the current interval survives exactly when the tick did not clear it. -/
def nextLive (st stNew : AppState) (cleared : Bool) : Bool :=
  if effectDeps stNew = effectDeps st then !cleared
  else stNew.taskId.isSome

/-- Runs the polling loop over a list of tick outcomes, threading the
liveness of the interval through `nextLive`: a scheduled outcome fires
only while an interval is live. -/
def runPoll : AppState × Bool → List TickInput → AppState × Bool
  | s, [] => s
  | (st, live), i :: rest =>
    if live then
      runPoll ((pollTick st i).1,
        nextLive st (pollTick st i).1 (pollTick st i).2) rest
    else (st, live)

/-- Embedding of `startProcessing`: an empty URL returns immediately;
otherwise the flag is set, transcript and cursor are cleared, and the
POST result (`some task_id` on success, `none` on fetch or JSON error)
either stores the task handle or resets the flag. -/
def startProcessing (st : AppState) (url : String)
    (result : Option String) : AppState :=
  if url = "" then st
  else
    let st1 := { st with isProcessing := true, sentences := [], lastKey := none }
    match result with
    | some tid => { st1 with taskId := some tid }
    | none => { st1 with isProcessing := false }

/-! ### Timestamp seek -/

/-- JavaScript `String.prototype.split` with a one-character separator:
`"".split(s)` is `[""]`, and every separator occurrence opens a new
(possibly empty) part. -/
def splitOnChar (sep : Char) : List Char → List (List Char)
  | [] => [[]]
  | c :: rest =>
    match splitOnChar sep rest with
    | [] => [[]]
    | g :: gs => if c = sep then [] :: g :: gs else (c :: g) :: gs

/-- JavaScript `Number(...)` on the strings this component feeds it:
the empty string converts to 0, a string of decimal digits to its value,
and anything else reachable here to NaN, modelled as `none`.  (Signed,
fractional, hexadecimal and whitespace-padded forms are not produced by
splitting a timestamp on colons and are outside this model.) -/
def jsNumber (s : List Char) : Option Nat :=
  if s = [] then some 0
  else if s.all (fun c => c.isDigit) then
    some (s.foldl (fun a c => a * 10 + (c.toNat - 48)) 0)
  else none

/-- Embedding of `seekToTime`: when no player is mounted, nothing
happens (`none`); otherwise the string is split on colons, the first
three parts converted by `Number` (a missing part is `undefined`, whose
arithmetic is NaN), and `seekTo(hours*3600 + minutes*60 + seconds, true)`
is invoked — `some (secs, flag)` records the call, with `secs = none`
standing for a NaN offset. -/
def seekToTime (hasPlayer : Bool) (timeStr : List Char) :
    Option (Option Nat × Bool) :=
  if !hasPlayer then none
  else
    let nums := (splitOnChar ':' timeStr).map jsNumber
    let total : Option Nat :=
      match nums.get? 0, nums.get? 1, nums.get? 2 with
      | some (some h), some (some m), some (some s) =>
        some (h * 3600 + m * 60 + s)
      | _, _, _ => none
    some (total, true)

/-- Decimal value of a digit string, stated through `Nat.ofDigits` (least
significant digit first, hence the reverse). -/
def digitsVal (l : List Char) : Nat :=
  Nat.ofDigits 10 ((l.map fun c => c.toNat - 48).reverse)

/-! ### Helper lemmas -/

theorem applyStatusProgress_sentences (st : AppState) (s : StatusResp) :
    (applyStatusProgress st s).sentences = st.sentences := by
  unfold applyStatusProgress
  split <;> rfl

theorem applyStatusProgress_lastKey (st : AppState) (s : StatusResp) :
    (applyStatusProgress st s).lastKey = st.lastKey := by
  unfold applyStatusProgress
  split <;> rfl

theorem applyStatusProgress_isProcessing (st : AppState) (s : StatusResp) :
    (applyStatusProgress st s).isProcessing = st.isProcessing := by
  unfold applyStatusProgress
  split <;> rfl

theorem applyStatusProgress_taskId (st : AppState) (s : StatusResp) :
    (applyStatusProgress st s).taskId = st.taskId := by
  unfold applyStatusProgress
  split <;> rfl

theorem pollTick_ok_sentences (st : AppState) (s : StatusResp)
    (tr : TranscriptResp) :
    (pollTick st (.ok s tr)).1.sentences =
      st.sentences ++ numberFrom (st.sentences.length + 1) tr.sentences := by
  unfold pollTick
  dsimp only
  by_cases hb : 0 < tr.sentences.length
  · rw [if_pos hb]
    split <;> simp [applyStatusProgress_sentences]
  · rw [if_neg hb]
    have hnil : tr.sentences = [] := by
      cases hs : tr.sentences with
      | nil => rfl
      | cons a l => exact absurd (hs ▸ Nat.succ_pos l.length) hb
    rw [hnil]
    split <;> simp [applyStatusProgress_sentences, numberFrom]

theorem pollTick_ok_progress (st : AppState) (s : StatusResp)
    (tr : TranscriptResp) :
    (pollTick st (.ok s tr)).1.progress = (applyStatusProgress st s).progress := by
  unfold pollTick
  dsimp only
  split <;> split <;> rfl

theorem runPoll_dead (st : AppState) (rest : List TickInput) :
    runPoll (st, false) rest = (st, false) := by
  cases rest <;> simp [runPoll]

theorem pollTick_taskId (st : AppState) (i : TickInput) :
    (pollTick st i).1.taskId = st.taskId := by
  cases i with
  | statusFail => rfl
  | transcriptFail s => exact applyStatusProgress_taskId st s
  | ok s tr =>
    unfold pollTick
    dsimp only
    split <;> split <;> simp [applyStatusProgress_taskId]

/-- A tick whose response carries no segments changes none of the
effect dependencies. -/
theorem pollTick_empty_deps (st : AppState) (s : StatusResp)
    (tr : TranscriptResp) (htr : tr.sentences = []) :
    effectDeps (pollTick st (.ok s tr)).1 = effectDeps st := by
  unfold pollTick
  dsimp only
  rw [htr]
  have hnot : ¬(0 < ([] : List Sentence).length) := by decide
  rw [if_neg hnot]
  split <;>
    simp [effectDeps, applyStatusProgress_taskId, applyStatusProgress_lastKey,
      applyStatusProgress_sentences]

theorem numberFrom_length (n : Nat) (b : List Sentence) :
    (numberFrom n b).length = b.length := by
  induction b generalizing n with
  | nil => rfl
  | cons a l ih => simp [numberFrom, ih]

theorem numberFrom_map_num (n : Nat) (b : List Sentence) :
    (numberFrom n b).map (fun x => x.sentence_number) =
      List.range' n b.length := by
  induction b generalizing n with
  | nil => rfl
  | cons a l ih => simp [numberFrom, ih, List.range'_succ]

theorem numberFrom_map_seg (n : Nat) (b : List Sentence) :
    (numberFrom n b).map (fun x => x.seg) = b := by
  induction b generalizing n with
  | nil => rfl
  | cons a l ih => simp [numberFrom, ih]

/-- Sequence-number invariant: the accumulated numbers are exactly
`1, 2, ..., length`. -/
def seqInv (st : AppState) : Prop :=
  st.sentences.map (fun x => x.sentence_number) =
    List.range' 1 st.sentences.length

theorem pollTick_seqInv (st : AppState) (i : TickInput) (h : seqInv st) :
    seqInv (pollTick st i).1 := by
  cases i with
  | statusFail => exact h
  | transcriptFail s =>
    unfold seqInv
    rw [show (pollTick st (.transcriptFail s)).1 = applyStatusProgress st s from rfl,
      applyStatusProgress_sentences]
    exact h
  | ok s tr =>
    unfold seqInv
    rw [pollTick_ok_sentences, List.map_append, numberFrom_map_num, h,
      List.length_append, numberFrom_length]
    have h2 := List.range'_append_1 1 st.sentences.length tr.sentences.length
    rw [Nat.add_comm 1 st.sentences.length] at h2
    rw [Nat.add_comm st.sentences.length tr.sentences.length]
    exact h2

theorem runPoll_seqInv (inputs : List TickInput) :
    ∀ (st : AppState) (live : Bool), seqInv st →
      seqInv (runPoll (st, live) inputs).1 := by
  induction inputs with
  | nil => exact fun st live h => h
  | cons i rest ih =>
    intro st live h
    cases live with
    | false => exact h
    | true =>
      show seqInv (runPoll ((pollTick st i).1,
        nextLive st (pollTick st i).1 (pollTick st i).2) rest).1
      exact ih _ _ (pollTick_seqInv st i h)

theorem roundPct_eq_round (p t : Nat) (ht : 0 < t) :
    (roundPct p t : ℤ) = round ((p : ℚ) / (t : ℚ) * 100) := by
  have ht0 : (t : ℚ) ≠ 0 := Nat.cast_ne_zero.mpr ht.ne'
  rw [round_eq]
  have h1 : (p : ℚ) / (t : ℚ) * 100 + 1 / 2 =
      (((200 * p + t : ℕ) : ℤ) : ℚ) / ((2 * t : ℕ) : ℚ) := by
    push_cast
    field_simp
    ring
  rw [h1, Rat.floor_intCast_div_natCast, roundPct]
  push_cast [Int.ofNat_div]
  rfl

/-! ### Claim theorems -/

/-- C4: on a tick whose status fetch succeeded, a positive total-chunk
count sets Progress to `round(processed / total * 100)` and a zero
total-chunk count leaves Progress unchanged (no division happens). -/
theorem c4_progress_rounded (st : AppState) (s : StatusResp)
    (tr : TranscriptResp) :
    (0 < s.total_chunks →
      (((pollTick st (.ok s tr)).1.progress : ℤ) =
        round ((s.processed_chunks : ℚ) / (s.total_chunks : ℚ) * 100))) ∧
    (s.total_chunks = 0 →
      (pollTick st (.ok s tr)).1.progress = st.progress) := by
  constructor
  · intro ht
    rw [pollTick_ok_progress]
    unfold applyStatusProgress
    rw [if_pos ht]
    exact roundPct_eq_round s.processed_chunks s.total_chunks ht
  · intro ht
    rw [pollTick_ok_progress]
    unfold applyStatusProgress
    rw [if_neg (by rw [ht]; exact lt_irrefl 0)]

/-- Witness for C4: status `(processed, total) = (1, 4)` yields Progress
25, and status `(0, 0)` leaves the previous Progress 7 untouched. -/
theorem c4_progress_rounded_witness :
    (pollTick initState (.ok ⟨"processing", 1, 4⟩ ⟨[], "k"⟩)).1.progress = 25 ∧
    round ((1 : ℚ) / (4 : ℚ) * 100) = (25 : ℤ) ∧
    (pollTick { initState with progress := 7 }
      (.ok ⟨"processing", 0, 0⟩ ⟨[], "k"⟩)).1.progress = 7 := by
  refine ⟨by decide, ?_,
    (c4_progress_rounded { initState with progress := 7 }
      ⟨"processing", 0, 0⟩ ⟨[], "k"⟩).2 rfl⟩
  have h := (c4_progress_rounded initState ⟨"processing", 1, 4⟩ ⟨[], "k"⟩).1
    (by decide)
  have h25 : (pollTick initState (.ok ⟨"processing", 1, 4⟩ ⟨[], "k"⟩)).1.progress
      = 25 := by decide
  rw [h25] at h
  exact_mod_cast h.symm

/-- C5: with a non-empty URL, submission on success stores the task
handle and sets the Processing Flag with transcript and cursor cleared;
on failure it ends with the Processing Flag reset to false; with an
empty URL it is a no-op. -/
theorem c5_submission (st : AppState) (url : String) (tid : String)
    (r : Option String) (h : url ≠ "") :
    startProcessing st url (some tid) =
      { st with taskId := some tid, sentences := [], lastKey := none,
                isProcessing := true } ∧
    startProcessing st url none =
      { st with sentences := [], lastKey := none, isProcessing := false } ∧
    startProcessing st "" r = st := by
  refine ⟨?_, ?_, ?_⟩ <;> simp [startProcessing, h]

/-- Witness for C5 at the initial state with URL `"u"`. -/
theorem c5_submission_witness :
    startProcessing initState "u" (some "t1") =
      { initState with taskId := some "t1", sentences := [], lastKey := none,
                       isProcessing := true } ∧
    startProcessing initState "u" none =
      { initState with sentences := [], lastKey := none,
                       isProcessing := false } ∧
    startProcessing initState "" (some "t1") = initState :=
  c5_submission initState "u" "t1" (some "t1") (by decide)

/-- C6 counterexample: a completed tick that appends a segment does call
`clearInterval`, but it also changes the effect dependencies (`lastKey`
and `sentences.length`) while `taskId` stays set, so the effect re-runs
and schedules a new interval: a further tick fires for the same task —
here it appends a second segment after the completed tick, leaving two
accumulated segments. -/
theorem c6_completed_cex :
    (pollTick (startProcessing initState "u" (some "t"))
      (.ok ⟨"completed", 4, 4⟩
        ⟨[⟨"k1", "00:00:01", "e1", "p1", "h1"⟩], "k1"⟩)).2 = true ∧
    (runPoll (startProcessing initState "u" (some "t"), true)
        [.ok ⟨"completed", 4, 4⟩
          ⟨[⟨"k1", "00:00:01", "e1", "p1", "h1"⟩], "k1"⟩,
         .ok ⟨"completed", 4, 4⟩
          ⟨[⟨"k2", "00:00:02", "e2", "p2", "h2"⟩], "k2"⟩]).1.sentences.length
      = 2 :=
  ⟨by decide, by decide⟩

/-- C6 amended: a tick whose status is "completed" clears the current
interval and the Processing Flag; when that tick appended no segments
the effect dependencies are unchanged, no interval is rescheduled and
the loop performs no further ticks — but a completed tick that appended
segments changes the dependencies and, `taskId` never being cleared,
the re-run effect schedules a new interval that performs further ticks
(see the counterexample). -/
theorem c6_completed_stops (st : AppState) (s : StatusResp)
    (tr : TranscriptResp) (h : s.status = "completed") :
    (pollTick st (.ok s tr)).2 = true ∧
    (pollTick st (.ok s tr)).1.isProcessing = false ∧
    (tr.sentences = [] → ∀ rest : List TickInput,
      runPoll (st, true) (.ok s tr :: rest) =
        ((pollTick st (.ok s tr)).1, false)) := by
  have hp : (pollTick st (.ok s tr)).2 = true := by
    unfold pollTick
    dsimp only
    rw [if_pos h]
  have hflag : (pollTick st (.ok s tr)).1.isProcessing = false := by
    unfold pollTick
    dsimp only
    rw [if_pos h]
  refine ⟨hp, hflag, fun htr rest => ?_⟩
  show runPoll ((pollTick st (.ok s tr)).1,
    nextLive st (pollTick st (.ok s tr)).1 (pollTick st (.ok s tr)).2) rest = _
  rw [show nextLive st (pollTick st (.ok s tr)).1
        (pollTick st (.ok s tr)).2 = false by
      unfold nextLive
      rw [pollTick_empty_deps st s tr htr, hp]
      simp]
  exact runPoll_dead _ rest

/-- Witness for C6 amended: a completed tick with an empty batch, then a
pending extra outcome that never fires. -/
theorem c6_completed_stops_witness :
    (pollTick initState (.ok ⟨"completed", 4, 4⟩ ⟨[], "k"⟩)).2 = true ∧
    (pollTick initState (.ok ⟨"completed", 4, 4⟩ ⟨[], "k"⟩)).1.isProcessing
      = false ∧
    runPoll (initState, true)
        [TickInput.ok ⟨"completed", 4, 4⟩ ⟨[], "k"⟩, TickInput.statusFail] =
      ((pollTick initState (.ok ⟨"completed", 4, 4⟩ ⟨[], "k"⟩)).1, false) := by
  have h := c6_completed_stops initState ⟨"completed", 4, 4⟩ ⟨[], "k"⟩ rfl
  exact ⟨h.1, h.2.1, h.2.2 rfl [TickInput.statusFail]⟩

/-- C7: a tick in which a fetch fails does not clear the interval, keeps
the Processing Flag, and its catch branch mutates no transcript state:
a status-fetch failure leaves the whole state unchanged, and a
transcript-fetch failure leaves flag, transcript, cursor and task handle
unchanged (only the already-performed progress update persists). -/
theorem c7_error_keeps_polling (st : AppState) (s : StatusResp) :
    pollTick st .statusFail = (st, false) ∧
    (pollTick st (.transcriptFail s)).2 = false ∧
    (pollTick st (.transcriptFail s)).1.isProcessing = st.isProcessing ∧
    (pollTick st (.transcriptFail s)).1.sentences = st.sentences ∧
    (pollTick st (.transcriptFail s)).1.lastKey = st.lastKey ∧
    (pollTick st (.transcriptFail s)).1.taskId = st.taskId :=
  ⟨rfl, rfl, applyStatusProgress_isProcessing st s,
    applyStatusProgress_sentences st s, applyStatusProgress_lastKey st s,
    applyStatusProgress_taskId st s⟩

/-- C9 counterexample: a successful new submission carries the previous
task's Progress value (here 100) over unchanged. -/
theorem c9_progress_carried_over :
    (startProcessing { initState with progress := 100 } "u2"
      (some "t2")).taskId = some "t2" ∧
    (startProcessing { initState with progress := 100 } "u2"
      (some "t2")).progress = 100 := by
  constructor <;> rfl

/-- C9 amended: submission never writes Progress, so the previous value
persists until the first status fetch of the new task whose total-chunk
count is positive, which recomputes it. -/
theorem c9_progress_persists_until_fetch (st : AppState) (url : String)
    (r : Option String) (s : StatusResp) (h : 0 < s.total_chunks) :
    (startProcessing st url r).progress = st.progress ∧
    (applyStatusProgress (startProcessing st url r) s).progress =
      roundPct s.processed_chunks s.total_chunks := by
  have hp : (startProcessing st url r).progress = st.progress := by
    unfold startProcessing
    split
    · rfl
    · cases r <;> rfl
  refine ⟨hp, ?_⟩
  unfold applyStatusProgress
  rw [if_pos h]

/-- Witness for C9 amended: Progress 100 survives the submission and is
recomputed to 25 by a status fetch `(1, 4)`. -/
theorem c9_progress_persists_until_fetch_witness :
    (startProcessing { initState with progress := 100 } "u2"
      (some "t2")).progress = 100 ∧
    (applyStatusProgress
      (startProcessing { initState with progress := 100 } "u2" (some "t2"))
      ⟨"processing", 1, 4⟩).progress = roundPct 1 4 ∧
    roundPct 1 4 = 25 := by
  have h := c9_progress_persists_until_fetch
    { initState with progress := 100 } "u2" (some "t2")
    ⟨"processing", 1, 4⟩ (by decide)
  exact ⟨h.1, h.2, by decide⟩

/-- C10: extraction never returns an identifier whose length differs
from 11. -/
theorem c10_extract_length (url t : List Char)
    (h : extractVideoId url = some t) : t.length = 11 := by
  unfold extractVideoId at h
  rcases hs : searchDown url url.length with _ | ⟨k, m⟩ <;> rw [hs] at h
  · exact absurd h (by simp)
  · dsimp only at h
    split at h
    · rename_i hlen
      cases h
      exact hlen
    · cases h

/-- Witness for C10 on a concrete matching URL. -/
theorem c10_extract_length_witness :
    extractVideoId (String.toList "https://youtu.be/ABCDEFGHIJK") =
      some (String.toList "ABCDEFGHIJK") ∧
    (String.toList "ABCDEFGHIJK").length = 11 :=
  ⟨by decide, c10_extract_length (String.toList "https://youtu.be/ABCDEFGHIJK")
    (String.toList "ABCDEFGHIJK") (by decide)⟩

theorem getLast?_seg_key (n : Nat) (b : List Sentence) :
    ((numberFrom n b).getLast?).map (fun x => x.seg) = b.getLast? := by
  rw [← List.getLast?_map, numberFrom_map_seg]

/-- C1: starting from a fresh submission — for any initial interval
liveness — after any sequence of tick outcomes the accumulated sequence
numbers are exactly `1 .. N` for `N` the accumulated count, however the
segments were batched; and each successful tick appends its batch
numbered consecutively from the current count + 1 in receipt order. -/
theorem c1_seq_numbers (st0 : AppState) (url : String) (r : Option String)
    (live0 : Bool) (inputs : List TickInput) (h : url ≠ "") :
    ((runPoll (startProcessing st0 url r, live0) inputs).1.sentences.map
        (fun x => x.sentence_number) =
      List.range' 1
        (runPoll (startProcessing st0 url r, live0) inputs).1.sentences.length) ∧
    ∀ (st : AppState) (s : StatusResp) (tr : TranscriptResp),
      (pollTick st (.ok s tr)).1.sentences =
        st.sentences ++ numberFrom (st.sentences.length + 1) tr.sentences := by
  constructor
  · apply runPoll_seqInv
    have hempty : (startProcessing st0 url r).sentences = [] := by
      unfold startProcessing
      rw [if_neg h]
      cases r <;> rfl
    unfold seqInv
    rw [hempty]
    rfl
  · exact pollTick_ok_sentences

/-- Demonstration segments for the concrete polling run. -/
def sA : Sentence := ⟨"k1", "00:00:01", "one", "p1", "t1"⟩

def sB : Sentence := ⟨"k2", "00:00:05", "two", "p2", "t2"⟩

def sC : Sentence := ⟨"k3", "00:00:09", "three", "p3", "t3"⟩

/-- A concrete run: a first tick delivering two segments, a second,
completing tick delivering one. -/
def demoInputs : List TickInput :=
  [.ok ⟨"processing", 1, 4⟩ ⟨[sA, sB], "k2"⟩,
   .ok ⟨"completed", 4, 4⟩ ⟨[sC], "k3"⟩]

/-- Witness for C1: the demonstration run numbers its three segments
1, 2, 3. -/
theorem c1_seq_numbers_witness :
    ((runPoll (startProcessing initState "u" (some "t"), true)
        demoInputs).1.sentences.map (fun x => x.sentence_number) =
      List.range' 1 (runPoll (startProcessing initState "u" (some "t"),
        true) demoInputs).1.sentences.length) ∧
    (runPoll (startProcessing initState "u" (some "t"), true)
        demoInputs).1.sentences.map (fun x => x.sentence_number) = [1, 2, 3] :=
  ⟨(c1_seq_numbers initState "u" (some "t") true demoInputs (by decide)).1,
    by decide⟩

/-- C3 counterexample: the code stores the server-provided `last_key`
field, so a tick whose response carries `last_key = "OTHER"` alongside a
single segment keyed `"k1"` leaves the cursor different from the key of
the last appended segment. -/
theorem c3_cursor_counterexample :
    ((pollTick initState (.ok ⟨"processing", 1, 4⟩
        ⟨[⟨"k1", "00:00:01", "e", "p", "t"⟩], "OTHER"⟩)).1.lastKey
      = some "OTHER") ∧
    (((pollTick initState (.ok ⟨"processing", 1, 4⟩
        ⟨[⟨"k1", "00:00:01", "e", "p", "t"⟩], "OTHER"⟩)).1.sentences.getLast?).map
        (fun x => x.seg.key) = some "k1") ∧
    ("OTHER" : String) ≠ "k1" :=
  ⟨by decide, by decide, by decide⟩

/-- C3 amended: after a tick with a non-empty batch the cursor equals
the response's `last_key` field; whenever that field equals the key of
the response's final segment — as the backend contract promises — the
cursor therefore equals the key of the most recently appended
segment. -/
theorem c3_cursor_server_key (st : AppState) (s : StatusResp)
    (tr : TranscriptResp) (h : tr.sentences ≠ []) :
    (pollTick st (.ok s tr)).1.lastKey = some tr.last_key ∧
    ((tr.sentences.getLast?).map (fun x => x.key) = some tr.last_key →
      (pollTick st (.ok s tr)).1.lastKey =
        ((pollTick st (.ok s tr)).1.sentences.getLast?).map
          (fun x => x.seg.key)) := by
  have hb : 0 < tr.sentences.length := List.length_pos.mpr h
  have hkey : (pollTick st (.ok s tr)).1.lastKey = some tr.last_key := by
    unfold pollTick
    dsimp only
    rw [if_pos hb]
    split <;> rfl
  refine ⟨hkey, fun hlk => ?_⟩
  rw [hkey, pollTick_ok_sentences, List.getLast?_append]
  cases hnf : (numberFrom (st.sentences.length + 1) tr.sentences).getLast? with
  | none =>
    have hb2 := getLast?_seg_key (st.sentences.length + 1) tr.sentences
    rw [hnf] at hb2
    rw [← hb2] at hlk
    simp at hlk
  | some x =>
    have hb2 := getLast?_seg_key (st.sentences.length + 1) tr.sentences
    rw [hnf] at hb2
    rw [← hb2] at hlk
    simp only [Option.map_some'] at hlk
    simp [Option.or, hlk]

/-- Witness for C3 amended on a response whose `last_key` matches its
final segment key. -/
theorem c3_cursor_server_key_witness :
    (pollTick initState (.ok ⟨"processing", 1, 4⟩
        ⟨[⟨"k1", "00:00:01", "e", "p", "t"⟩], "k1"⟩)).1.lastKey = some "k1" ∧
    (pollTick initState (.ok ⟨"processing", 1, 4⟩
        ⟨[⟨"k1", "00:00:01", "e", "p", "t"⟩], "k1"⟩)).1.lastKey =
      ((pollTick initState (.ok ⟨"processing", 1, 4⟩
        ⟨[⟨"k1", "00:00:01", "e", "p", "t"⟩], "k1"⟩)).1.sentences.getLast?).map
        (fun x => x.seg.key) := by
  have h := c3_cursor_server_key initState ⟨"processing", 1, 4⟩
    ⟨[⟨"k1", "00:00:01", "e", "p", "t"⟩], "k1"⟩ (by decide)
  exact ⟨h.1, h.2 (by decide)⟩

theorem splitOnChar_cons (sep c : Char) (rest : List Char) :
    splitOnChar sep (c :: rest) =
      match splitOnChar sep rest with
      | [] => [[]]
      | g :: gs => if c = sep then [] :: g :: gs else (c :: g) :: gs := rfl

theorem splitOnChar_ne_nil (sep : Char) (l : List Char) :
    splitOnChar sep l ≠ [] := by
  cases l with
  | nil => simp [splitOnChar]
  | cons c rest =>
    rw [splitOnChar_cons]
    cases h : splitOnChar sep rest with
    | nil => simp
    | cons g gs =>
      dsimp only
      split <;> simp

theorem splitOnChar_no_sep (sep : Char) (a : List Char) (h : sep ∉ a) :
    splitOnChar sep a = [a] := by
  induction a with
  | nil => rfl
  | cons c t ih =>
    have hc : c ≠ sep := fun hc => h (hc ▸ List.mem_cons_self c t)
    have ht : sep ∉ t := fun m => h (List.mem_cons_of_mem _ m)
    rw [splitOnChar_cons, ih ht]
    simp [hc]

theorem splitOnChar_append (sep : Char) (a rest : List Char) (h : sep ∉ a) :
    splitOnChar sep (a ++ sep :: rest) = a :: splitOnChar sep rest := by
  induction a with
  | nil =>
    show splitOnChar sep (sep :: rest) = [] :: splitOnChar sep rest
    rw [splitOnChar_cons]
    cases hr : splitOnChar sep rest with
    | nil => exact absurd hr (splitOnChar_ne_nil sep rest)
    | cons g gs => simp
  | cons c t ih =>
    have hc : c ≠ sep := fun hc => h (hc ▸ List.mem_cons_self c _)
    have ht : sep ∉ t := fun m => h (List.mem_cons_of_mem _ m)
    show splitOnChar sep (c :: (t ++ sep :: rest)) = (c :: t) :: _
    rw [splitOnChar_cons, ih ht]
    simp [hc]

theorem foldl_digitsVal (l : List Char) :
    ∀ a : Nat, l.foldl (fun a c => a * 10 + (c.toNat - 48)) a
      = a * 10 ^ l.length + digitsVal l := by
  induction l with
  | nil => intro a; simp [digitsVal, Nat.ofDigits]
  | cons c t ih =>
    intro a
    simp only [List.foldl_cons, ih, digitsVal, List.map_cons,
      List.reverse_cons, Nat.ofDigits_append, List.length_reverse,
      List.length_map, List.length_cons, Nat.ofDigits_singleton]
    ring

theorem jsNumber_digits (l : List Char) (h : l.all Char.isDigit = true) :
    jsNumber l = some (digitsVal l) := by
  unfold jsNumber
  by_cases hl : l = []
  · subst hl
    simp [digitsVal, Nat.ofDigits]
  · rw [if_neg hl, if_pos h, foldl_digitsVal]
    simp

theorem not_colon_of_digits (l : List Char) (h : l.all Char.isDigit = true) :
    (':' : Char) ∉ l := fun m =>
  absurd (List.all_eq_true.mp h _ m) (by decide)

/-- C8: with a player mounted, any time string of shape
`<digits>:<digits>:<digits>` makes the component invoke the player seek
with `hours * 3600 + minutes * 60 + seconds` and the immediate-seek
flag true. -/
theorem c8_seek_offset (hs ms ss : List Char)
    (h1 : hs.all Char.isDigit = true) (h2 : ms.all Char.isDigit = true)
    (h3 : ss.all Char.isDigit = true) :
    seekToTime true (hs ++ ':' :: (ms ++ ':' :: ss)) =
      some (some (digitsVal hs * 3600 + digitsVal ms * 60 + digitsVal ss),
        true) := by
  unfold seekToTime
  rw [splitOnChar_append _ _ _ (not_colon_of_digits hs h1),
    splitOnChar_append _ _ _ (not_colon_of_digits ms h2),
    splitOnChar_no_sep _ _ (not_colon_of_digits ss h3)]
  simp [jsNumber_digits hs h1, jsNumber_digits ms h2, jsNumber_digits ss h3]

/-- Witness for C8: clicking an entry at start-time "00:01:05" seeks to
65 seconds with the immediate flag. -/
theorem c8_seek_offset_witness :
    seekToTime true (String.toList "00:01:05") = some (some 65, true) := by
  have h := c8_seek_offset (String.toList "00") (String.toList "01")
    (String.toList "05") (by decide) (by decide) (by decide)
  have hsplit : String.toList "00:01:05" =
      String.toList "00" ++ ':' :: (String.toList "01" ++ ':'
        :: String.toList "05") := by decide
  rw [hsplit, h]
  decide

/-- C2 counterexample: the URL "watch?v=AAAAAAAAAAA&v=BBB" matches the
recognized shape `watch?v=` followed by the 11-character token
"AAAAAAAAAAA" (the maximal run of non-`#&?` characters after the
shape), yet extraction returns null, because the greedy leading `.*` of
the regex commits to the later `&v=` occurrence whose trailing run
"BBB" is not 11 characters long. -/
theorem c2_extract_counterexample :
    specClaimMatch (String.toList "watch?v=AAAAAAAAAAA&v=BBB")
      (String.toList "AAAAAAAAAAA") ∧
    extractVideoId (String.toList "watch?v=AAAAAAAAAAA&v=BBB") = none :=
  ⟨⟨0, 8, by decide, by decide, by decide⟩, by decide⟩

theorem searchDown_findGreatest (url : List Char) :
    ∀ n : Nat, searchDown url n =
      (tryAt url
          (Nat.findGreatest (fun k => (tryAt url k).isSome = true) n)).map
        (fun m =>
          (Nat.findGreatest (fun k => (tryAt url k).isSome = true) n, m)) := by
  intro n
  induction n with
  | zero => simp [searchDown, Nat.findGreatest_zero]
  | succ k ih =>
    unfold searchDown
    cases ht : tryAt url (k + 1) with
    | some m =>
      have hp : (tryAt url (k + 1)).isSome = true := by rw [ht]; rfl
      rw [Nat.findGreatest_eq hp, ht]
      rfl
    | none =>
      have hp : ¬((tryAt url (k + 1)).isSome = true) := by rw [ht]; simp
      rw [Nat.findGreatest_of_not hp]
      exact ih

/-- C2 amended: extraction commits to the LAST position in the URL at
which any recognized shape matches (eligible means the prefix holds no
line terminator, and the dot of `youtu.be` stands for any
non-line-terminator character); it returns the maximal run of
non-`#&?` characters after that occurrence exactly when the run has 11
characters, and null otherwise — in particular null on every URL with
no shape occurrence.  `specLastExtract` states this via
`Nat.findGreatest`; the theorem proves the code equal to it. -/
theorem c2_extract_last_occurrence (url : List Char) :
    extractVideoId url = specLastExtract url := by
  unfold extractVideoId specLastExtract
  dsimp only
  rw [searchDown_findGreatest url url.length]
  cases h : tryAt url
      (Nat.findGreatest (fun k => (tryAt url k).isSome = true) url.length) with
  | none => rfl
  | some m => rfl

end App
